import Mathlib

/-!
Shallow embedding of the boot-manager core of `src/main.py`
(class `AdvancedBootManager` and the timeout entry point of
`BootManagerApp`).

The external `bcdedit` tool is modelled as an oracle
`Gateway : List String → Option RunResult`; `none` models
`subprocess.run` raising (spawn failure: missing binary, permission
denied), `some r` models a completed process with captured
stdout/stderr/exit code.  Every embedded operation returns the list of
argument vectors it handed to `subprocess.run` (its command trace, in
order, spawn attempts included) together with its Python return value.
`try/except` blocks around the subprocess calls are modelled by the
operation returning its documented fallback value instead of
propagating an error.

Text processing is done over `List Char`.  Python `str.lower` is
modelled for ASCII (all key tokens compared by the program are ASCII or
already lower-case), and `\s` is modelled by the ASCII whitespace
characters; regex greedy backtracking inside a run of trailing
whitespace (which can only produce a value that strips to the empty
string) is not modelled.
-/

abbrev Chars := List Char

abbrev Cmd := List String

structure RunResult where
  stdout : String
  stderr : String
  returncode : Int
deriving DecidableEq

abbrev Gateway := Cmd → Option RunResult

def lbrace : Char := Char.ofNat 123

def rbrace : Char := Char.ofNat 125

/-- ASCII lower-casing of one character, the fragment of Python
`str.lower` exercised by the program's key tokens. -/
def toLowerC (c : Char) : Char :=
  if 'A' ≤ c ∧ c ≤ 'Z' then Char.ofNat (c.toNat + 32) else c

def lowerL (l : Chars) : Chars := l.map toLowerC

/-- Python regex `\s` / `str.strip` whitespace, ASCII fragment. -/
def isPySpace (c : Char) : Bool :=
  c == ' ' || c == '\t' || c == '\n' || c == '\r' || c == '\x0b' || c == '\x0c'

/-- Python `str.strip()`. -/
def stripL (l : Chars) : Chars :=
  ((l.dropWhile isPySpace).reverse.dropWhile isPySpace).reverse

/-- Python `str.split(sep)` for a one-character separator. -/
def splitOnChar (sep : Char) : Chars → List Chars
  | [] => [[]]
  | c :: rest =>
    let r := splitOnChar sep rest
    if c == sep then [] :: r
    else
      match r with
      | h :: t => (c :: h) :: t
      | [] => [[c]]

/-- Python `needle in hay` substring containment. -/
def containsL (needle : Chars) : Chars → Bool
  | [] => needle.isPrefixOf []
  | c :: rest => needle.isPrefixOf (c :: rest) || containsL needle rest

/-- Character class `[a-fA-F0-9\-]` of the identifier regex. -/
def isHexDash (c : Char) : Bool :=
  c.isDigit || ('a' ≤ c && c ≤ 'f') || ('A' ≤ c && c ≤ 'F') || c == '-'

/-- Fuelled scanner for the regex `{[a-fA-F0-9\-]+}` (each step
consumes at least one character, so fuel equal to the input length is
always sufficient; the fuel only makes the recursion structural). -/
def findGuidsAux : Nat → Chars → List String
  | 0, _ => []
  | _, [] => []
  | fuel + 1, c :: rest =>
    if c == lbrace then
      let run := rest.takeWhile isHexDash
      if run ≠ [] ∧ (rest.drop run.length).head? = some rbrace then
        String.mk (lbrace :: run ++ [rbrace]) ::
          findGuidsAux fuel (rest.drop (run.length + 1))
      else
        findGuidsAux fuel rest
    else
      findGuidsAux fuel rest

/-- All matches of the regex `{[a-fA-F0-9\-]+}` in the text, scanning
left to right, non-overlapping (`re.findall`); its head is the match
found by `re.search`. -/
def findGuids (l : Chars) : List String := findGuidsAux l.length l

/-- One step of the first-seen de-duplication loop of
`list_identifiers` (append the identifier unless already collected). -/
def ufStep (acc : List String) (x : String) : List String :=
  if x ∈ acc then acc else acc ++ [x]

/-- The `unique_identifiers` accumulation loop of `list_identifiers`. -/
def uniqueFirst (l : List String) : List String := l.foldl ufStep []

/-! ## Translation table (`property_translations` / `get_translation`) -/

def property_translations : List (String × List (String × String)) :=
  [("en",
    [("identifier", "identifier"), ("device", "device"), ("path", "path"),
     ("description", "description"), ("type", "type"), ("default", "default"),
     ("bootmgr", "bootmgr"), ("timeout", "timeout"),
     ("displayorder", "displayorder"), ("osdevice", "osdevice")]),
   ("de",
    [("identifier", "bezeichner"), ("device", "gerät"), ("path", "pfad"),
     ("description", "beschreibung"), ("type", "typ"), ("default", "standard"),
     ("bootmgr", "boot-manager"), ("timeout", "zeitlimit"),
     ("displayorder", "anzeigereihenfolge"), ("osdevice", "osgerät")]),
   ("fr",
    [("identifier", "identificateur"), ("device", "périphérique"),
     ("path", "chemin"), ("description", "description"), ("type", "type"),
     ("default", "défaut"), ("bootmgr", "gestionnaire de démarrage"),
     ("timeout", "délai d\x27attente"),
     ("displayorder", "ordre d\x27affichage"),
     ("osdevice", "périphérique os")]),
   ("es",
    [("identifier", "identificador"), ("device", "dispositivo"),
     ("path", "ruta"), ("description", "descripción"), ("type", "tipo"),
     ("default", "predeterminado"), ("bootmgr", "administrador de arranque"),
     ("timeout", "tiempo de espera"),
     ("displayorder", "orden de visualización"),
     ("osdevice", "dispositivo del so")])]

/-- `get_translation`: table lookup by language code and lower-cased key,
falling back to the key itself on any `KeyError`. -/
def get_translation (lang key : String) : String :=
  match property_translations.find? (fun p => p.1 == lang) with
  | none => key
  | some (_, tbl) =>
    match tbl.find? (fun p => p.1 == String.mk (lowerL key.toList)) with
    | none => key
    | some (_, v) => v

/-! ## Command gateway wrappers -/

def enumAllCmd : Cmd := ["bcdedit", "/enum", "/v"]

def enumBootmgrCmd : Cmd := ["bcdedit", "/enum", "\x7bbootmgr\x7d"]

def enumIdCmd (id : String) : Cmd := ["bcdedit", "/enum", id, "/v"]

def timeoutCmd (seconds : Int) : Cmd := ["bcdedit", "/timeout", toString seconds]

def clearOrderCmd : Cmd := ["bcdedit", "/deletevalue", "\x7bbootmgr\x7d", "displayorder"]

def setOrderCmd (order : List String) : Cmd := ["bcdedit", "/displayorder"] ++ order

def copyCmd (description : String) : Cmd :=
  ["bcdedit", "/copy", "\x7bcurrent\x7d", "/d", description]

def setCmd (id key value : String) : Cmd := ["bcdedit", "/set", id, key, value]

/-- `get_entries`: full verbose enumeration; `none` both on spawn
failure (exception path) and on a non-zero exit code. -/
def get_entries (g : Gateway) : List Cmd × Option String :=
  match g enumAllCmd with
  | none => ([enumAllCmd], none)
  | some r =>
    if r.returncode ≠ 0 then ([enumAllCmd], none)
    else ([enumAllCmd], some r.stdout)

/-- `list_identifiers`: all brace-delimited identifiers of the full
dump, de-duplicated keeping first occurrences; `[]` when the
enumeration produced nothing (`if not output`). -/
def list_identifiers (g : Gateway) : List Cmd × List String :=
  let r := get_entries g
  match r.2 with
  | none => (r.1, [])
  | some s =>
    if s = "" then (r.1, [])
    else (r.1, uniqueFirst (findGuids s.toList))

/-- `get_entry_info`: per-identifier verbose enumeration; `none` on
spawn failure or non-zero exit. -/
def get_entry_info (g : Gateway) (id : String) : List Cmd × Option String :=
  match g (enumIdCmd id) with
  | none => ([enumIdCmd id], none)
  | some r =>
    if r.returncode ≠ 0 then ([enumIdCmd id], none)
    else ([enumIdCmd id], some r.stdout)

/-! ## Entry parser (`parse_entry_properties`) -/

/-- Ordered-dict insertion (`properties[key] = value`). -/
def dictInsert (m : List (String × String)) (k v : String) :
    List (String × String) :=
  if m.any (fun p => p.1 == k) then
    m.map (fun p => if p.1 == k then (k, v) else p)
  else m ++ [(k, v)]

/-- Dict lookup (`properties.get(key)` / `properties['key']`). -/
def dictLookup (m : List (String × String)) (k : String) : Option String :=
  (m.find? (fun p => p.1 == k)).map (fun p => p.2)

/-- `re.match(r'^\s*([^\s]+)\s+(.+)$', line.strip())`: first
whitespace-delimited token is the key (lower-cased), the remainder
after the following whitespace run is the value. -/
def parseLine (line : Chars) : Option (String × String) :=
  let t := stripL line
  let key := t.takeWhile (fun c => !(isPySpace c))
  let rest := t.dropWhile (fun c => !(isPySpace c))
  let ws := rest.takeWhile isPySpace
  let value := rest.dropWhile isPySpace
  if key ≠ [] ∧ ws ≠ [] ∧ value ≠ [] then
    some (String.mk (lowerL key), String.mk value)
  else none

/-- `parse_entry_properties`: line-wise key/value extraction, then the
first brace-delimited identifier of the whole block overrides the
`identifier` key. -/
def parse_entry_properties (info : Chars) : List (String × String) :=
  if info = [] then []
  else
    let props := (splitOnChar '\n' info).foldl
      (fun acc line =>
        match parseLine line with
        | some kv => dictInsert acc kv.1 kv.2
        | none => acc) []
    match (findGuids info).head? with
    | some gid => dictInsert props "identifier" gid
    | none => props

/-- The Boot Store Adapter read path `getEntry`: the composition
`parse_entry_properties(get_entry_info(id))` used by the property
accessors, with the empty mapping on gateway failure. -/
def get_entry (g : Gateway) (id : String) : List (String × String) :=
  match (get_entry_info g id).2 with
  | none => []
  | some s => parse_entry_properties s.toList

/-! ## Property accessors (three-tier fallback lookup) -/

/-- `re.search(rf'KEY\s+(.+)', text, re.IGNORECASE)` for a lower-case
key, returning `group(1).strip()`: scan for the leftmost position where
the lower-cased text starts with the key followed by at least one
whitespace character and a non-empty rest of line. -/
def searchKeyValue (key : Chars) : Chars → Option String
  | [] => none
  | c :: rest =>
    if key.isPrefixOf (lowerL (c :: rest)) then
      let after := (c :: rest).drop key.length
      let ws := after.takeWhile isPySpace
      let v := (after.dropWhile isPySpace).takeWhile (fun ch => ch ≠ '\n')
      if ws ≠ [] ∧ v ≠ [] then some (String.mk (stripL v))
      else searchKeyValue key rest
    else searchKeyValue key rest

/-- Tier-3 scan of `get_entry_device`: first parsed property whose key
contains `device` / the localized device key, or `osdevice` / the
localized osdevice key. -/
def propsDeviceScan (deviceKey osdeviceKey : Chars) :
    List (String × String) → Option String
  | [] => none
  | kv :: rest =>
    if containsL ("device".toList) kv.1.toList ||
        containsL deviceKey kv.1.toList then some kv.2
    else if containsL ("osdevice".toList) kv.1.toList ||
        containsL osdeviceKey kv.1.toList then some kv.2
    else propsDeviceScan deviceKey osdeviceKey rest

/-- Tier-3 scan of `get_entry_path`. -/
def propsPathScan (pathKey : Chars) :
    List (String × String) → Option String
  | [] => none
  | kv :: rest =>
    if containsL ("path".toList) kv.1.toList ||
        containsL pathKey kv.1.toList then some kv.2
    else propsPathScan pathKey rest

/-- `get_entry_device`: `""` when the per-entry dump is unavailable or
empty, else localized device key, then localized osdevice key, then the
tier-3 scan of the parsed properties. -/
def get_entry_device (lang : String) (g : Gateway) (id : String) :
    List Cmd × String :=
  let r := get_entry_info g id
  match r.2 with
  | none => (r.1, "")
  | some s =>
    if s = "" then (r.1, "")
    else
      let deviceKey := lowerL (get_translation lang "device").toList
      let osdeviceKey := lowerL (get_translation lang "osdevice").toList
      match searchKeyValue deviceKey s.toList with
      | some v => (r.1, v)
      | none =>
        match searchKeyValue osdeviceKey s.toList with
        | some v => (r.1, v)
        | none =>
          match propsDeviceScan deviceKey osdeviceKey
              (parse_entry_properties s.toList) with
          | some v => (r.1, v)
          | none => (r.1, "")

/-- `get_entry_path`: `""` when the dump is unavailable or empty, else
localized path key, then canonical `path`, then the tier-3 scan. -/
def get_entry_path (lang : String) (g : Gateway) (id : String) :
    List Cmd × String :=
  let r := get_entry_info g id
  match r.2 with
  | none => (r.1, "")
  | some s =>
    if s = "" then (r.1, "")
    else
      let pathKey := lowerL (get_translation lang "path").toList
      match searchKeyValue pathKey s.toList with
      | some v => (r.1, v)
      | none =>
        match searchKeyValue ("path".toList) s.toList with
        | some v => (r.1, v)
        | none =>
          match propsPathScan pathKey (parse_entry_properties s.toList) with
          | some v => (r.1, v)
          | none => (r.1, "")

/-! ## Status evaluators -/

/-- `check_ramdisk`: any of the three ramdisk property names occurs in
the lower-cased dump; `False` when the dump is unavailable or empty. -/
def check_ramdisk (g : Gateway) (id : String) : List Cmd × Bool :=
  let r := get_entry_info g id
  match r.2 with
  | none => (r.1, false)
  | some s =>
    if s = "" then (r.1, false)
    else
      (r.1,
        containsL ("ramdisksdidevice".toList) (lowerL s.toList) ||
        containsL ("ramdisksdipath".toList) (lowerL s.toList) ||
        containsL ("ramdisksdiprocessorarchitecture".toList) (lowerL s.toList))

/-- `check_uefi`: `.efi` or `uefi` occurs in the lower-cased dump;
`False` when the dump is unavailable or empty. -/
def check_uefi (g : Gateway) (id : String) : List Cmd × Bool :=
  let r := get_entry_info g id
  match r.2 with
  | none => (r.1, false)
  | some s =>
    if s = "" then (r.1, false)
    else
      (r.1,
        containsL (".efi".toList) (lowerL s.toList) ||
        containsL ("uefi".toList) (lowerL s.toList))

/-- Python `device.split("=", 1)[1]`: everything after the first `=`.
(Reached only under the `partition=` prefix guard, where an `=` is
always present; without one Python would raise an `IndexError` that the
surrounding `except` turns into `False`.) -/
def afterFirstEq : Chars → Chars
  | [] => []
  | c :: rest => if c == '=' then rest else afterFirstEq rest

/-- The probed filesystem root of a `partition=` device string: the
drive designator after the `=`, with a trailing backslash appended
unless already present. -/
def designatorRoot (device : String) : String :=
  let partition := afterFirstEq device.toList
  if partition.getLast? = some '\\' then String.mk partition
  else String.mk (partition ++ ['\\'])

/-- `partition_exists`: for a non-empty device string whose lower-cased
form starts with `partition=`, probe the designator root against the
filesystem oracle `fs` (`os.path.exists`); any other device is treated
as existing. -/
def partition_exists (fs : String → Bool) (device : String) : Bool :=
  if device ≠ "" ∧ ("partition=".toList).isPrefixOf (lowerL device.toList) then
    fs (designatorRoot device)
  else true

/-- The decision core of `has_missing_path_or_device` over the already
fetched device and path strings. -/
def has_missing_core (fs : String → Bool) (device path : String) : Bool :=
  if device = "" ∨ path = "" ∨ lowerL device.toList = "unknown".toList ∨
      lowerL path.toList = "unknown".toList then true
  else if ("partition=".toList).isPrefixOf (lowerL device.toList) ∧
      ¬ partition_exists fs device then true
  else false

/-- `has_missing_path_or_device`: fetch device and path via the
accessors, then decide. -/
def has_missing_path_or_device (lang : String) (g : Gateway)
    (fs : String → Bool) (id : String) : Bool :=
  has_missing_core fs (get_entry_device lang g id).2 (get_entry_path lang g id).2

/-! ## Display order -/

/-- One line of the line-windowed display-order scan: state is
(inside-section flag, identifiers collected so far). -/
def displayOrderStep (dKey : Chars) (st : Bool × List String) (line : Chars) :
    Bool × List String :=
  let low := lowerL line
  if containsL dKey low || containsL ("displayorder".toList) low then
    (true,
      match (findGuids line).head? with
      | some gid => st.2 ++ [gid]
      | none => st.2)
  else if st.1 ∧ stripL line ≠ [] then
    (st.1,
      match (findGuids line).head? with
      | some gid => st.2 ++ [gid]
      | none => st.2)
  else if st.1 ∧ stripL line = [] then (false, st.2)
  else st

/-- `get_display_order`: enumerate the boot-manager pseudo-entry and
scan its dump; `[]` on spawn failure or non-zero exit. -/
def get_display_order (lang : String) (g : Gateway) : List Cmd × List String :=
  match g enumBootmgrCmd with
  | none => ([enumBootmgrCmd], [])
  | some r =>
    if r.returncode ≠ 0 then ([enumBootmgrCmd], [])
    else
      let dKey := lowerL (get_translation lang "displayorder").toList
      ([enumBootmgrCmd],
        ((splitOnChar '\n' r.stdout.toList).foldl
          (displayOrderStep dKey) (false, [])).2)

/-- `set_display_order`: unconditionally clear the stored value (its
result unchecked), then, only for a non-empty list, one set-order
command carrying the whole list; a spawn failure anywhere is caught and
reported as `False`. -/
def set_display_order (g : Gateway) (order : List String) : List Cmd × Bool :=
  match g clearOrderCmd with
  | none => ([clearOrderCmd], false)
  | some _ =>
    if order ≠ [] then
      match g (setOrderCmd order) with
      | none => ([clearOrderCmd, setOrderCmd order], false)
      | some r => ([clearOrderCmd, setOrderCmd order], r.returncode == 0)
    else ([clearOrderCmd], true)

inductive MoveAction where
  | fail
  | noop
  | reorder (l : List String)
deriving DecidableEq

/-- The list manipulation of `move_entry_up`: `fail` for an empty order
or an absent identifier, `noop` at index `0`, otherwise swap with the
previous element. -/
def move_entry_up_core (order : List String) (id : String) : MoveAction :=
  if order = [] ∨ id ∉ order then .fail
  else
    let i := order.indexOf id
    if i = 0 then .noop
    else
      let a := order.getD i ""
      let b := order.getD (i - 1) ""
      .reorder ((order.set i b).set (i - 1) a)

/-- The list manipulation of `move_entry_down`: `noop` at the last
index, otherwise swap with the next element. -/
def move_entry_down_core (order : List String) (id : String) : MoveAction :=
  if order = [] ∨ id ∉ order then .fail
  else
    let i := order.indexOf id
    if i = order.length - 1 then .noop
    else
      let a := order.getD i ""
      let b := order.getD (i + 1) ""
      .reorder ((order.set i b).set (i + 1) a)

/-- `move_entry_up`: fetch the current order, then dispatch on the list
manipulation; only a real swap issues `set_display_order`. -/
def move_entry_up (lang : String) (g : Gateway) (id : String) :
    List Cmd × Bool :=
  let r := get_display_order lang g
  match move_entry_up_core r.2 id with
  | .fail => (r.1, false)
  | .noop => (r.1, true)
  | .reorder l =>
    let s := set_display_order g l
    (r.1 ++ s.1, s.2)

/-- `move_entry_down`: mirror image of `move_entry_up`. -/
def move_entry_down (lang : String) (g : Gateway) (id : String) :
    List Cmd × Bool :=
  let r := get_display_order lang g
  match move_entry_down_core r.2 id with
  | .fail => (r.1, false)
  | .noop => (r.1, true)
  | .reorder l =>
    let s := set_display_order g l
    (r.1 ++ s.1, s.2)

/-! ## Timeout -/

/-- `AdvancedBootManager.set_timeout`: one command, no validation;
`False` on spawn failure or non-zero exit. -/
def set_timeout (g : Gateway) (seconds : Int) : List Cmd × Bool :=
  match g (timeoutCmd seconds) with
  | none => ([timeoutCmd seconds], false)
  | some r => ([timeoutCmd seconds], r.returncode == 0)

inductive AppTimeoutOutcome where
  | invalidInput
  | setOk
  | setFailed
deriving DecidableEq

/-- `BootManagerApp.set_timeout` after the integer parse of the text
field: a negative value is rejected with an input-error dialog before
`AdvancedBootManager.set_timeout` is ever invoked (an unparseable value
is likewise rejected by the surrounding `except ValueError`, outside
this model). -/
def app_set_timeout (g : Gateway) (timeout : Int) :
    List Cmd × AppTimeoutOutcome :=
  if timeout < 0 then ([], .invalidInput)
  else
    let r := set_timeout g timeout
    (r.1, if r.2 then .setOk else .setFailed)

/-! ## Entry creation (`add_entry`) -/

/-- Python truthiness of the optional string arguments of `add_entry`
(`None` and `""` are falsy). -/
def optTruthy : Option String → Bool
  | none => false
  | some s => s ≠ ""

/-- Run a list of commands in order, ignoring exit codes (follow-up
failures only print warnings); a spawn failure stops the sequence and
reports it (the exception propagates to the caller's `except`). -/
def runSeq (g : Gateway) : List Cmd → List Cmd × Bool
  | [] => ([], true)
  | c :: rest =>
    match g c with
    | none => ([c], false)
    | some _ =>
      let r := runSeq g rest
      (c :: r.1, r.2)

/-- `add_entry`: copy-from-`\x7bcurrent\x7d` first; abort with `None`
when the copy exits non-zero or its output carries no fresh identifier;
otherwise fire-and-continue follow-up `/set` commands for the truthy
optional arguments, returning the new identifier unless a spawn failure
interrupted the sequence. -/
def add_entry (g : Gateway) (description : String)
    (device path typ : Option String) : List Cmd × Option String :=
  match g (copyCmd description) with
  | none => ([copyCmd description], none)
  | some r =>
    if r.returncode ≠ 0 then ([copyCmd description], none)
    else
      match (findGuids r.stdout.toList).head? with
      | none => ([copyCmd description], none)
      | some newId =>
        let followUps :=
          (if optTruthy device then
            [setCmd newId "device" (device.getD ""),
             setCmd newId "osdevice" (device.getD "")]
          else []) ++
          (if optTruthy path then [setCmd newId "path" (path.getD "")]
          else []) ++
          (if optTruthy typ then [setCmd newId "type" (typ.getD "")]
          else [])
        let s := runSeq g followUps
        (copyCmd description :: s.1, if s.2 then some newId else none)

/-! ## Concrete worlds used by the witnesses -/

/-- A gateway that never manages to spawn the external tool. -/
def gwSpawnFail : Gateway := fun _ => none

/-- A gateway whose tool always runs and rejects the command. -/
def gwToolReject : Gateway := fun _ => some ⟨"", "Access is denied.", 1⟩

/-- A gateway whose tool accepts every command with empty output. -/
def gwAllOk : Gateway := fun _ => some ⟨"", "", 0⟩

/-! ## Helper lemmas -/

theorem get_display_order_fst (lang : String) (g : Gateway) :
    (get_display_order lang g).1 = [enumBootmgrCmd] := by
  unfold get_display_order
  cases g enumBootmgrCmd with
  | none => rfl
  | some r =>
    simp only
    split <;> rfl

theorem getElem_ne_of_lt_indexOf (l : List String) (a : String) :
    ∀ (m : Nat) (hm : m < l.length), m < List.indexOf a l → l[m] ≠ a := by
  induction l with
  | nil => intro m hm _; simp at hm
  | cons b t ih =>
    intro m hm hlt
    have hb : b ≠ a := by
      intro hba
      rw [List.indexOf_cons_eq t hba] at hlt
      omega
    cases m with
    | zero => simpa using hb
    | succ m =>
      rw [List.indexOf_cons_ne t hb] at hlt
      rw [List.getElem_cons_succ]
      exact ih m (by simpa using hm) (by omega)

theorem indexOf_eq_of_getElem (l : List String) (a : String) :
    ∀ (n : Nat) (hn : n < l.length), l[n] = a →
      (∀ (m : Nat) (hm : m < l.length), m < n → l[m] ≠ a) →
      List.indexOf a l = n := by
  induction l with
  | nil => intro n hn _ _; simp at hn
  | cons b t ih =>
    intro n hn hget hmin
    cases n with
    | zero => exact List.indexOf_cons_eq t (by simpa using hget)
    | succ n =>
      have hb : b ≠ a := by
        have := hmin 0 (by simp) (by omega)
        simpa using this
      rw [List.indexOf_cons_ne t hb]
      have := ih n (by simpa using hn) (by simpa using hget)
        (fun m hm hlt => by
          have := hmin (m + 1) (by simpa using Nat.succ_lt_succ hm) (by omega)
          simpa using this)
      omega

theorem findGuids_nil : findGuids [] = [] := rfl

theorem mem_foldl_ufStep (l : List String) :
    ∀ (acc : List String) (x : String),
      (x ∈ l.foldl ufStep acc ↔ x ∈ acc ∨ x ∈ l) := by
  induction l with
  | nil => intro acc x; simp
  | cons a t ih =>
    intro acc x
    show x ∈ t.foldl ufStep (ufStep acc a) ↔ _
    rw [ih]
    unfold ufStep
    by_cases ha : a ∈ acc
    · rw [if_pos ha]
      constructor
      · rintro (h | h)
        · exact Or.inl h
        · exact Or.inr (List.mem_cons_of_mem a h)
      · rintro (h | h)
        · exact Or.inl h
        · rcases List.mem_cons.mp h with h | h
          · exact Or.inl (h ▸ ha)
          · exact Or.inr h
    · rw [if_neg ha]
      simp only [List.mem_append, List.mem_singleton, List.mem_cons]
      tauto

theorem nodup_foldl_ufStep (l : List String) :
    ∀ acc : List String, acc.Nodup → (l.foldl ufStep acc).Nodup := by
  induction l with
  | nil => intro acc h; simpa using h
  | cons a t ih =>
    intro acc hacc
    show (t.foldl ufStep (ufStep acc a)).Nodup
    apply ih
    unfold ufStep
    by_cases ha : a ∈ acc
    · rwa [if_pos ha]
    · rw [if_neg ha]
      simp only [List.nodup_append, List.nodup_singleton]
      exact ⟨hacc, trivial, by simpa using ha⟩

theorem pairwise_foldl_ufStep (occs : List String) (l : List String) :
    ∀ (p acc : List String), occs = p ++ l →
      (∀ x, x ∈ acc ↔ x ∈ p) →
      acc.Pairwise (fun a b => occs.indexOf a < occs.indexOf b) →
      (l.foldl ufStep acc).Pairwise
        (fun a b => occs.indexOf a < occs.indexOf b) := by
  induction l with
  | nil => intro p acc _ _ hpw; simpa using hpw
  | cons x t ih =>
    intro p acc hocc hmem hpw
    show (t.foldl ufStep (ufStep acc x)).Pairwise _
    by_cases hx : x ∈ acc
    · refine ih (p ++ [x]) (ufStep acc x) (by rw [hocc]; simp) ?_ ?_
      · intro y
        rw [ufStep, if_pos hx, hmem]
        constructor
        · intro h; exact List.mem_append_left _ h
        · intro h
          rcases List.mem_append.mp h with h | h
          · exact h
          · rw [List.mem_singleton.mp h]
            exact (hmem x).mp hx
      · rw [ufStep, if_pos hx]; exact hpw
    · refine ih (p ++ [x]) (ufStep acc x) (by rw [hocc]; simp) ?_ ?_
      · intro y
        rw [ufStep, if_neg hx]
        simp only [List.mem_append, List.mem_singleton]
        rw [hmem]
      · rw [ufStep, if_neg hx, List.pairwise_append]
        refine ⟨hpw, List.pairwise_singleton _ _, ?_⟩
        intro a ha b hb
        rw [List.mem_singleton.mp hb]
        have hap : a ∈ p := (hmem a).mp ha
        have hxp : x ∉ p := fun hc => hx ((hmem x).mpr hc)
        rw [hocc, List.indexOf_append_of_mem hap,
          List.indexOf_append_of_not_mem hxp, List.indexOf_cons_self]
        have h1 : List.indexOf a p < p.length :=
          List.indexOf_lt_length.mpr hap
        omega

theorem find_map_replace (k v : String) :
    ∀ m : List (String × String), m.any (fun p => p.1 == k) = true →
      ((m.map (fun p => if p.1 == k then (k, v) else p)).find?
        (fun p => p.1 == k)) = some (k, v) := by
  intro m
  induction m with
  | nil => intro h; simp at h
  | cons a t ih =>
    intro h
    by_cases hak : a.1 = k
    · simp [hak]
    · have ht : t.any (fun p => p.1 == k) = true := by
        simpa [hak] using h
      simpa [hak] using ih ht

theorem find_append_kv (k v : String) :
    ∀ m : List (String × String), m.any (fun p => p.1 == k) = false →
      ((m ++ [(k, v)]).find? (fun p => p.1 == k)) = some (k, v) := by
  intro m
  induction m with
  | nil => intro _; simp
  | cons a t ih =>
    intro h
    have hak : ¬ a.1 = k := by
      intro hc; simp [hc] at h
    have ht : t.any (fun p => p.1 == k) = false := by
      simpa [hak] using h
    simpa [hak] using ih ht

theorem dictLookup_dictInsert (m : List (String × String)) (k v : String) :
    dictLookup (dictInsert m k v) k = some v := by
  unfold dictInsert dictLookup
  by_cases h : m.any (fun p => p.1 == k) = true
  · rw [if_pos h, find_map_replace k v m h]; rfl
  · rw [if_neg h, find_append_kv k v m (Bool.not_eq_true _ ▸ h)]; rfl

theorem dictInsert_ne_nil (m : List (String × String)) (k v : String) :
    dictInsert m k v ≠ [] := by
  unfold dictInsert
  split
  · intro hc
    rcases List.map_eq_nil_iff.mp hc with rfl
    simp_all
  · simp

/-! ## Claim theorems -/

/-- Claim C1: for every negative integer (in particular `-1`), the
timeout-setting operation of the application layer rejects the value in
its non-negativity validation, invokes zero external-tool commands
(empty command trace) and reports the failure as an input error. -/
theorem app_set_timeout_rejects_negative (g : Gateway) (t : Int) (h : t < 0) :
    app_set_timeout g t = ([], .invalidInput) := by
  simp [app_set_timeout, h]

theorem app_set_timeout_rejects_negative_witness :
    (-1 : Int) < 0 ∧
      app_set_timeout gwSpawnFail (-1) = ([], .invalidInput) :=
  ⟨by decide, app_set_timeout_rejects_negative gwSpawnFail (-1) (by decide)⟩

/-- Claim C2, counterexample: a spawn failure and a tool rejection are
NOT reported distinctly to the caller — `get_entries` returns the very
same value (`none`, one attempted command) in both worlds, and
`set_timeout` likewise returns the same `false`; nothing in the
caller-visible result separates the two failure kinds (only the printed
diagnostics differ). -/
theorem spawn_and_reject_reported_identically :
    get_entries gwSpawnFail = ([enumAllCmd], none) ∧
    get_entries gwToolReject = ([enumAllCmd], none) ∧
    get_entries gwSpawnFail = get_entries gwToolReject ∧
    set_timeout gwSpawnFail 5 = ([timeoutCmd 5], false) ∧
    set_timeout gwToolReject 5 = ([timeoutCmd 5], false) ∧
    set_timeout gwSpawnFail 5 = set_timeout gwToolReject 5 := by
  refine ⟨rfl, ?_, ?_, rfl, ?_, ?_⟩ <;> decide

/-- Claim C2, amended: for the operations that invoke the external
tool, a failure to spawn the process and a non-zero exit are both
reported to the caller as the operation's single failure value
(`none` / `false`) rather than by a raised exception; the two failure
kinds are not distinguished in that value. -/
theorem failure_reported_without_exception (g : Gateway) :
    (g enumAllCmd = none → (get_entries g).2 = none) ∧
    (∀ r : RunResult, g enumAllCmd = some r → r.returncode ≠ 0 →
      (get_entries g).2 = none) ∧
    (∀ s : Int, g (timeoutCmd s) = none → (set_timeout g s).2 = false) ∧
    (∀ (s : Int) (r : RunResult), g (timeoutCmd s) = some r →
      r.returncode ≠ 0 → (set_timeout g s).2 = false) := by
  refine ⟨fun h => ?_, fun r hr hc => ?_, fun s h => ?_, fun s r hr hc => ?_⟩
  · simp [get_entries, h]
  · simp [get_entries, hr, hc]
  · simp [set_timeout, h]
  · simp [set_timeout, hr, hc]

theorem failure_reported_without_exception_witness :
    (get_entries gwSpawnFail).2 = none ∧ (set_timeout gwToolReject 5).2 = false :=
  ⟨(failure_reported_without_exception gwSpawnFail).1 rfl,
   (failure_reported_without_exception gwToolReject).2.2.2 5
     ⟨"", "Access is denied.", 1⟩ rfl (by decide)⟩

/-- Claim C4: `set_display_order` first issues the clear command; for a
non-empty list the trace is exactly the clear followed by one set-order
command carrying the full list, for the empty list the trace is the
clear alone and the operation returns success. -/
theorem set_display_order_clear_then_set (g : Gateway) (order : List String)
    (h : g clearOrderCmd ≠ none) :
    (order ≠ [] →
      (set_display_order g order).1 = [clearOrderCmd, setOrderCmd order]) ∧
    (order = [] → set_display_order g order = ([clearOrderCmd], true)) := by
  constructor
  · intro hne
    cases hg : g clearOrderCmd with
    | none => exact absurd hg h
    | some r =>
      simp only [set_display_order, hg, if_pos hne]
      cases g (setOrderCmd order) <;> rfl
  · intro he
    subst he
    cases hg : g clearOrderCmd with
    | none => exact absurd hg h
    | some r => simp [set_display_order, hg]

theorem set_display_order_clear_then_set_witness :
    gwAllOk clearOrderCmd ≠ none ∧
    (set_display_order gwAllOk ["\x7baa\x7d"]).1 =
      [clearOrderCmd, setOrderCmd ["\x7baa\x7d"]] ∧
    set_display_order gwAllOk [] = ([clearOrderCmd], true) :=
  ⟨by decide,
   (set_display_order_clear_then_set gwAllOk ["\x7baa\x7d"] (by decide)).1
     (by decide),
   (set_display_order_clear_then_set gwAllOk [] (by decide)).2 rfl⟩

/-- Claim C5: when the copy-from-template command of `add_entry` fails
— spawn failure, non-zero exit, or no fresh identifier in its output —
the operation returns no identifier and its trace is the copy command
alone: no device, osdevice, path or type follow-up command is run. -/
theorem add_entry_copy_failure_aborts (g : Gateway) (description : String)
    (device path typ : Option String)
    (h : g (copyCmd description) = none ∨
      ∃ r, g (copyCmd description) = some r ∧
        (r.returncode ≠ 0 ∨ findGuids r.stdout.toList = [])) :
    add_entry g description device path typ = ([copyCmd description], none) := by
  rcases h with h | ⟨r, hr, hcase⟩
  · simp [add_entry, h]
  · by_cases hrc : r.returncode = 0
    · have hg : findGuids r.stdout.data = [] := by
        rcases hcase with hc | hc
        · exact absurd hrc hc
        · exact hc
      simp [add_entry, hr, hrc, hg]
    · simp [add_entry, hr, hrc]

theorem add_entry_copy_failure_aborts_witness :
    ((fun c => if c = copyCmd "Test" then
        some (RunResult.mk "The entry was not copied." "" 1) else
        some (RunResult.mk "" "" 0) : Gateway) (copyCmd "Test") = none ∨
      ∃ r, (fun c => if c = copyCmd "Test" then
        some (RunResult.mk "The entry was not copied." "" 1) else
        some (RunResult.mk "" "" 0) : Gateway) (copyCmd "Test") = some r ∧
        (r.returncode ≠ 0 ∨ findGuids r.stdout.toList = [])) ∧
    add_entry (fun c => if c = copyCmd "Test" then
        some (RunResult.mk "The entry was not copied." "" 1) else
        some (RunResult.mk "" "" 0))
      "Test" (some "partition=C:") (some "\\Windows") none =
      ([copyCmd "Test"], none) :=
  ⟨Or.inr ⟨RunResult.mk "The entry was not copied." "" 1, by decide,
    Or.inl (by decide)⟩,
   add_entry_copy_failure_aborts _ "Test" (some "partition=C:")
     (some "\\Windows") none
     (Or.inr ⟨RunResult.mk "The entry was not copied." "" 1, by decide,
       Or.inl (by decide)⟩)⟩

/-- Claim C9: on an empty display order, or when the identifier does
not occur in it, both moves return failure (not no-op success) and
their whole trace is the single read command — no clear-order and no
set-order command is issued, so the stored order is untouched. -/
theorem moves_fail_without_mutation (lang : String) (g : Gateway) (id : String)
    (h : (get_display_order lang g).2 = [] ∨ id ∉ (get_display_order lang g).2) :
    move_entry_up lang g id = ([enumBootmgrCmd], false) ∧
    move_entry_down lang g id = ([enumBootmgrCmd], false) := by
  have hup : move_entry_up_core (get_display_order lang g).2 id = .fail := by
    unfold move_entry_up_core
    rw [if_pos h]
  have hdown : move_entry_down_core (get_display_order lang g).2 id = .fail := by
    unfold move_entry_down_core
    rw [if_pos h]
  constructor
  · simp only [move_entry_up, hup, get_display_order_fst]
  · simp only [move_entry_down, hdown, get_display_order_fst]

theorem moves_fail_without_mutation_witness :
    ((get_display_order "en" gwSpawnFail).2 = [] ∨
      "\x7baa\x7d" ∉ (get_display_order "en" gwSpawnFail).2) ∧
    move_entry_up "en" gwSpawnFail "\x7baa\x7d" = ([enumBootmgrCmd], false) ∧
    move_entry_down "en" gwSpawnFail "\x7baa\x7d" = ([enumBootmgrCmd], false) :=
  ⟨Or.inl rfl,
   (moves_fail_without_mutation "en" gwSpawnFail "\x7baa\x7d" (Or.inl rfl)).1,
   (moves_fail_without_mutation "en" gwSpawnFail "\x7baa\x7d" (Or.inl rfl)).2⟩

/-- Claim C8: the missing-data check is true exactly when the device or
path string is absent (empty) or equals the `unknown` sentinel
(case-insensitively), or the device is a `partition=` reference whose
drive designator root is not observable on the filesystem; in
particular it is false when device and path are both present,
non-sentinel, and any partition reference resolves. -/
theorem has_missing_core_iff (fs : String → Bool) (device path : String) :
    (has_missing_core fs device path = true ↔
      device = "" ∨ path = "" ∨ lowerL device.toList = "unknown".toList ∨
      lowerL path.toList = "unknown".toList ∨
      (("partition=".toList).isPrefixOf (lowerL device.toList) ∧
        fs (designatorRoot device) = false)) ∧
    (device ≠ "" → path ≠ "" → lowerL device.toList ≠ "unknown".toList →
      lowerL path.toList ≠ "unknown".toList →
      (("partition=".toList).isPrefixOf (lowerL device.toList) →
        fs (designatorRoot device) = true) →
      has_missing_core fs device path = false) := by
  by_cases h1 : device = "" ∨ path = "" ∨
      lowerL device.toList = "unknown".toList ∨
      lowerL path.toList = "unknown".toList
  · have ht : has_missing_core fs device path = true := by
      unfold has_missing_core; rw [if_pos h1]
    constructor
    · rw [ht]
      constructor
      · intro _; tauto
      · intro _; rfl
    · intro hd hp hdu hpu _
      tauto
  · have hd : device ≠ "" := fun hc => h1 (Or.inl hc)
    have hcore : has_missing_core fs device path =
        if ("partition=".toList).isPrefixOf (lowerL device.toList) ∧
            ¬ partition_exists fs device = true then true else false := by
      unfold has_missing_core; rw [if_neg h1]
    by_cases hp : ("partition=".toList).isPrefixOf (lowerL device.toList)
    · have hpe : partition_exists fs device = fs (designatorRoot device) := by
        unfold partition_exists
        rw [if_pos ⟨hd, hp⟩]
      by_cases hf : fs (designatorRoot device) = true
      · have hfalse : has_missing_core fs device path = false := by
          rw [hcore, if_neg (by simp [hpe, hf])]
        constructor
        · rw [hfalse]
          constructor
          · intro hc; exact absurd hc (by simp)
          · rintro (h | h | h | h | ⟨_, hff⟩)
            · exact absurd h hd
            · exact absurd (Or.inr (Or.inl h)) h1
            · exact absurd (Or.inr (Or.inr (Or.inl h))) h1
            · exact absurd (Or.inr (Or.inr (Or.inr h))) h1
            · rw [hf] at hff; exact absurd hff (by simp)
        · intro _ _ _ _ _; exact hfalse
      · have hff : fs (designatorRoot device) = false := by
          cases hx : fs (designatorRoot device)
          · rfl
          · exact absurd hx hf
        have htrue : has_missing_core fs device path = true := by
          rw [hcore, if_pos ⟨hp, by simp [hpe, hff]⟩]
        constructor
        · rw [htrue]
          constructor
          · intro _
            exact Or.inr (Or.inr (Or.inr (Or.inr ⟨hp, hff⟩)))
          · intro _; rfl
        · intro _ _ _ _ hres
          exact absurd (hres hp) (by simp [hff])
    · have hfalse : has_missing_core fs device path = false := by
        rw [hcore, if_neg (fun hc => hp hc.1)]
      constructor
      · rw [hfalse]
        constructor
        · intro hc; exact absurd hc (by simp)
        · rintro (h | h | h | h | ⟨hpp, _⟩)
          · exact absurd h hd
          · exact absurd (Or.inr (Or.inl h)) h1
          · exact absurd (Or.inr (Or.inr (Or.inl h))) h1
          · exact absurd (Or.inr (Or.inr (Or.inr h))) h1
          · exact absurd hpp hp
      · intro _ _ _ _ _; exact hfalse

theorem has_missing_core_iff_witness :
    ("partition=C:" : String) ≠ "" ∧
    has_missing_core (fun s => s == "C:\\") "partition=C:"
      "\\Windows\\system32\\winload.efi" = false ∧
    has_missing_core (fun s => s == "C:\\") "partition=D:"
      "\\Windows\\system32\\winload.efi" = true :=
  ⟨by decide,
   (has_missing_core_iff (fun s => s == "C:\\") "partition=C:"
       "\\Windows\\system32\\winload.efi").2
     (by decide) (by decide) (by decide) (by decide) (fun _ => by decide),
   (has_missing_core_iff (fun s => s == "C:\\") "partition=D:"
       "\\Windows\\system32\\winload.efi").1.mpr
     (Or.inr (Or.inr (Or.inr (Or.inr ⟨by decide, by decide⟩))))⟩

/-- Claim C10: when the per-identifier enumeration yields no output
(gateway failure or an empty dump), the status evaluators degrade
without raising: UEFI and ramdisk checks are `false`, the device and
path accessors return `""`, and the missing-data check is consequently
`true`. -/
theorem degraded_status_on_missing_dump (lang : String) (g : Gateway)
    (fs : String → Bool) (id : String)
    (h : (get_entry_info g id).2 = none ∨ (get_entry_info g id).2 = some "") :
    (check_uefi g id).2 = false ∧ (check_ramdisk g id).2 = false ∧
    (get_entry_device lang g id).2 = "" ∧ (get_entry_path lang g id).2 = "" ∧
    has_missing_path_or_device lang g fs id = true := by
  rcases h with h | h <;>
    simp [check_uefi, check_ramdisk, get_entry_device, get_entry_path,
      has_missing_path_or_device, has_missing_core, h]

/-- Claim C3: on an order where the identifier's (first) position is
neither the head nor the last element, `move_entry_up` rewrites the
store with a swapped list from which `move_entry_down` rewrites back
exactly the original order (round trip); an identifier at the first
position makes `move_entry_up` — and one at the last position makes
`move_entry_down` — return success with the single read command as its
whole trace, issuing no reorder command. -/
theorem move_up_down_round_trip :
    (∀ (order : List String) (id : String),
      id ∈ order → 0 < order.indexOf id →
      order.indexOf id + 1 < order.length →
      ∃ l₁, move_entry_up_core order id = .reorder l₁ ∧
        move_entry_down_core l₁ id = .reorder order) ∧
    (∀ (lang : String) (g : Gateway) (id : String),
      id ∈ (get_display_order lang g).2 →
      (get_display_order lang g).2.indexOf id = 0 →
      move_entry_up lang g id = ([enumBootmgrCmd], true)) ∧
    (∀ (lang : String) (g : Gateway) (id : String),
      id ∈ (get_display_order lang g).2 →
      (get_display_order lang g).2.indexOf id + 1 =
        (get_display_order lang g).2.length →
      move_entry_down lang g id = ([enumBootmgrCmd], true)) := by
  refine ⟨?_, ?_, ?_⟩
  · intro order id hmem hpos hlast
    have hlen : order.indexOf id < order.length :=
      List.indexOf_lt_length.mpr hmem
    have him1o : order.indexOf id - 1 < order.length := by omega
    have hguard : ¬(order = [] ∨ id ∉ order) := by
      push_neg
      exact ⟨List.ne_nil_of_mem hmem, hmem⟩
    have ha : order.getD (order.indexOf id) "" = id := by
      rw [List.getD_eq_getElem order "" hlen]
      exact List.getElem_indexOf hlen
    refine ⟨(order.set (order.indexOf id)
        (order.getD (order.indexOf id - 1) "")).set
        (order.indexOf id - 1) id, ?_, ?_⟩
    · simp only [move_entry_up_core]
      rw [if_neg hguard, if_neg (by omega : ¬ order.indexOf id = 0), ha]
    · generalize hL1 : (order.set (order.indexOf id)
        (order.getD (order.indexOf id - 1) "")).set
        (order.indexOf id - 1) id = L1
      have hlen1 : L1.length = order.length := by
        rw [← hL1]; simp
      have him1 : order.indexOf id - 1 < L1.length := by omega
      have hiL : order.indexOf id < L1.length := by omega
      have hBd : L1.getD (order.indexOf id - 1) "" = id := by
        rw [← hL1]
        rw [List.getD_eq_getElem _ "" (by simp only [List.length_set]; omega)]
        exact List.getElem_set_self (by simp only [List.length_set]; omega)
      have hCd : L1.getD (order.indexOf id) "" =
          order.getD (order.indexOf id - 1) "" := by
        rw [← hL1]
        rw [List.getD_eq_getElem _ "" (by simp only [List.length_set]; omega)]
        rw [List.getElem_set_ne
          (by omega : order.indexOf id - 1 ≠ order.indexOf id)]
        exact List.getElem_set_self (by simp only [List.length_set]; omega)
      have hAd : ∀ (m : Nat), m < order.length →
          m ≠ order.indexOf id - 1 → m ≠ order.indexOf id →
          L1.getD m "" = order.getD m "" := by
        intro m hmo h1 h2
        rw [← hL1]
        rw [List.getD_eq_getElem _ "" (by simp only [List.length_set]; omega)]
        rw [List.getElem_set_ne (fun hc => h1 hc.symm)]
        rw [List.getElem_set_ne (fun hc => h2 hc.symm)]
        exact (List.getD_eq_getElem order "" hmo).symm
      have hB : L1[order.indexOf id - 1] = id := by
        rw [← List.getD_eq_getElem L1 "" him1]
        exact hBd
      have hC : L1[order.indexOf id] =
          order.getD (order.indexOf id - 1) "" := by
        rw [← List.getD_eq_getElem L1 "" hiL]
        exact hCd
      have hA : ∀ (m : Nat) (hmL : m < L1.length) (hmo : m < order.length),
          m ≠ order.indexOf id - 1 → m ≠ order.indexOf id →
          L1[m] = order[m] := by
        intro m hmL hmo h1 h2
        rw [← List.getD_eq_getElem L1 "" hmL,
          ← List.getD_eq_getElem order "" hmo]
        exact hAd m hmo h1 h2
      have hmem1 : id ∈ L1 := by
        rw [← hB]
        exact List.getElem_mem him1
      have hguard1 : ¬(L1 = [] ∨ id ∉ L1) := by
        push_neg
        exact ⟨List.ne_nil_of_mem hmem1, hmem1⟩
      have hidx1 : L1.indexOf id = order.indexOf id - 1 := by
        apply indexOf_eq_of_getElem L1 id (order.indexOf id - 1) him1 hB
        intro m hm hlt
        have hmo : m < order.length := by omega
        rw [hA m hm hmo (by omega) (by omega)]
        exact getElem_ne_of_lt_indexOf order id m hmo (by omega)
      simp only [move_entry_down_core]
      rw [if_neg hguard1, hidx1,
        if_neg (by omega : ¬ order.indexOf id - 1 = L1.length - 1)]
      rw [show order.indexOf id - 1 + 1 = order.indexOf id from by omega]
      rw [hCd, hBd]
      congr 1
      apply List.ext_getElem
      · simp [hlen1]
      · intro n h1 h2
        by_cases hn2 : n = order.indexOf id
        · subst hn2
          rw [List.getElem_set_self (by simp only [List.length_set]; omega)]
          exact (List.getElem_indexOf hlen).symm
        · rw [List.getElem_set_ne (fun hc => hn2 hc.symm)]
          by_cases hn1 : n = order.indexOf id - 1
          · subst hn1
            rw [List.getElem_set_self (by simp only [List.length_set]; omega)]
            exact List.getD_eq_getElem order "" him1o
          · rw [List.getElem_set_ne (fun hc => hn1 hc.symm)]
            exact hA n (by simpa using h1) h2 hn1 hn2
  · intro lang g id hmem hidx0
    have hguard : ¬((get_display_order lang g).2 = [] ∨
        id ∉ (get_display_order lang g).2) := by
      push_neg
      exact ⟨List.ne_nil_of_mem hmem, hmem⟩
    have hcore : move_entry_up_core (get_display_order lang g).2 id = .noop := by
      simp only [move_entry_up_core]
      rw [if_neg hguard, if_pos hidx0]
    simp only [move_entry_up, hcore, get_display_order_fst]
  · intro lang g id hmem hlast
    have hguard : ¬((get_display_order lang g).2 = [] ∨
        id ∉ (get_display_order lang g).2) := by
      push_neg
      exact ⟨List.ne_nil_of_mem hmem, hmem⟩
    have hcore : move_entry_down_core (get_display_order lang g).2 id = .noop := by
      simp only [move_entry_down_core]
      rw [if_neg hguard, if_pos (by omega :
        (get_display_order lang g).2.indexOf id =
          (get_display_order lang g).2.length - 1)]
    simp only [move_entry_down, hcore, get_display_order_fst]

/-- A gateway whose boot-manager dump renders a three-entry display
order as a multi-line block. -/
def gwOrder : Gateway := fun args =>
  if args = enumBootmgrCmd then
    some (RunResult.mk
      "Windows Boot Manager\ndisplayorder            \x7baa11\x7d\n                        \x7bbb22\x7d\n                        \x7bcc33\x7d\n\ntimeout                 30\n"
      "" 0)
  else none

theorem move_up_down_round_trip_witness :
    (∃ l₁,
      move_entry_up_core ["\x7baa11\x7d", "\x7bbb22\x7d", "\x7bcc33\x7d"]
        "\x7bbb22\x7d" = .reorder l₁ ∧
      move_entry_down_core l₁ "\x7bbb22\x7d" =
        .reorder ["\x7baa11\x7d", "\x7bbb22\x7d", "\x7bcc33\x7d"]) ∧
    move_entry_up "en" gwOrder "\x7baa11\x7d" = ([enumBootmgrCmd], true) ∧
    move_entry_down "en" gwOrder "\x7bcc33\x7d" = ([enumBootmgrCmd], true) :=
  ⟨move_up_down_round_trip.1 ["\x7baa11\x7d", "\x7bbb22\x7d", "\x7bcc33\x7d"]
      "\x7bbb22\x7d" (by decide) (by decide) (by decide),
   move_up_down_round_trip.2.1 "en" gwOrder "\x7baa11\x7d"
     (by decide) (by decide),
   move_up_down_round_trip.2.2 "en" gwOrder "\x7bcc33\x7d"
     (by decide) (by decide)⟩

/-- Claim C6: on a successful enumeration, `list_identifiers` returns
the brace-delimited identifiers of the output with no duplicates, the
same membership as the raw occurrence sequence, and sorted by the index
of each identifier's first occurrence (first-seen order); on a failed
enumeration it returns the empty list rather than an error. -/
theorem list_identifiers_first_seen_dedup :
    (∀ (g : Gateway) (r : RunResult), g enumAllCmd = some r →
      r.returncode = 0 →
      ((list_identifiers g).2.Nodup ∧
        (∀ x, x ∈ (list_identifiers g).2 ↔ x ∈ findGuids r.stdout.toList) ∧
        (list_identifiers g).2.Pairwise (fun a b =>
          List.indexOf a (findGuids r.stdout.toList) <
            List.indexOf b (findGuids r.stdout.toList)))) ∧
    (∀ g : Gateway,
      (g enumAllCmd = none ∨ ∃ r, g enumAllCmd = some r ∧ r.returncode ≠ 0) →
      (list_identifiers g).2 = []) := by
  constructor
  · intro g r hg hrc
    have hge : get_entries g = ([enumAllCmd], some r.stdout) := by
      simp [get_entries, hg, hrc]
    by_cases hs : r.stdout = ""
    · have hnil : (list_identifiers g).2 = [] := by
        simp [list_identifiers, hge, hs]
      rw [hnil, hs]
      refine ⟨List.nodup_nil, ?_, List.Pairwise.nil⟩
      intro x
      constructor
      · intro h; simp at h
      · intro h; rw [show ("" : String).toList = [] from rfl, findGuids_nil] at h
        simp at h
    · have hres :
          (list_identifiers g).2 = uniqueFirst (findGuids r.stdout.toList) := by
        simp [list_identifiers, hge, hs]
      rw [hres]
      unfold uniqueFirst
      refine ⟨nodup_foldl_ufStep _ [] List.nodup_nil, ?_, ?_⟩
      · intro x; rw [mem_foldl_ufStep]; simp
      · exact pairwise_foldl_ufStep _ _ [] [] rfl (by simp) List.Pairwise.nil
  · intro g h
    rcases h with h | ⟨r, hr, hrc⟩
    · simp [list_identifiers, get_entries, h]
    · simp [list_identifiers, get_entries, hr, hrc]

/-- A gateway whose full enumeration contains three identifier
occurrences, the first and the last identical. -/
def gwEnum : Gateway := fun args =>
  if args = enumAllCmd then
    some (RunResult.mk
      "x \x7baaaa-bbbb\x7d y \x7bcccc-dddd\x7d z \x7baaaa-bbbb\x7d\n" "" 0)
  else none

def rEnum : RunResult :=
  RunResult.mk "x \x7baaaa-bbbb\x7d y \x7bcccc-dddd\x7d z \x7baaaa-bbbb\x7d\n" "" 0

theorem list_identifiers_first_seen_dedup_witness :
    gwEnum enumAllCmd = some rEnum ∧ rEnum.returncode = 0 ∧
    ((list_identifiers gwEnum).2.Nodup ∧
      (∀ x, x ∈ (list_identifiers gwEnum).2 ↔
        x ∈ findGuids rEnum.stdout.toList) ∧
      (list_identifiers gwEnum).2.Pairwise (fun a b =>
        List.indexOf a (findGuids rEnum.stdout.toList) <
          List.indexOf b (findGuids rEnum.stdout.toList))) :=
  ⟨rfl, rfl, list_identifiers_first_seen_dedup.1 gwEnum rEnum rfl rfl⟩

/-- Claim C7: a dump block containing at least one brace-delimited
identifier is parsed to a mapping whose `identifier` key holds the
first such identifier of the block (whatever localized key token
precedes it); consequently, for an identifier listed by
`list_identifiers`, a reachable tool whose per-identifier dump leads
with that identifier yields a non-empty `get_entry` mapping whose
`identifier` equals it. -/
theorem parse_identifier_is_first_guid :
    (∀ text : Chars, findGuids text ≠ [] →
      dictLookup (parse_entry_properties text) "identifier" =
        (findGuids text).head?) ∧
    (∀ (g : Gateway) (id : String) (r : RunResult),
      id ∈ (list_identifiers g).2 →
      g (enumIdCmd id) = some r → r.returncode = 0 →
      (findGuids r.stdout.toList).head? = some id →
      get_entry g id ≠ [] ∧
        dictLookup (get_entry g id) "identifier" = some id) := by
  have h1 : ∀ text : Chars, findGuids text ≠ [] →
      dictLookup (parse_entry_properties text) "identifier" =
        (findGuids text).head? ∧ parse_entry_properties text ≠ [] := by
    intro text hfg
    have htext : text ≠ [] := by
      intro hc; rw [hc, findGuids_nil] at hfg; exact hfg rfl
    cases hh : (findGuids text).head? with
    | none =>
      rw [List.head?_eq_none_iff] at hh
      exact absurd hh hfg
    | some gid =>
      constructor
      · simp only [parse_entry_properties, if_neg htext, hh]
        rw [dictLookup_dictInsert]
      · simp only [parse_entry_properties, if_neg htext, hh]
        exact dictInsert_ne_nil _ _ _
  constructor
  · intro text hfg; exact (h1 text hfg).1
  · intro g id r hmem hg hrc hfirst
    have hinfo : (get_entry_info g id).2 = some r.stdout := by
      simp [get_entry_info, hg, hrc]
    have hge : get_entry g id = parse_entry_properties r.stdout.toList := by
      simp [get_entry, hinfo]
    have hfg : findGuids r.stdout.toList ≠ [] := by
      intro hc; rw [hc] at hfirst; simp at hfirst
    refine ⟨?_, ?_⟩
    · rw [hge]; exact (h1 _ hfg).2
    · rw [hge, (h1 _ hfg).1, hfirst]

/-- A localized (German) per-entry dump whose identifier is preceded by
a non-English key token. -/
def infoText : String :=
  "Windows-Startladeprogramm\nbezeichner              \x7bcafe-1234\x7d\ngerät                   partition=C:\n"

/-- A gateway that enumerates one entry and serves its per-identifier
dump. -/
def gwEntry : Gateway := fun args =>
  if args = enumAllCmd then
    some (RunResult.mk "Eintrag \x7bcafe-1234\x7d\n" "" 0)
  else if args = enumIdCmd "\x7bcafe-1234\x7d" then
    some (RunResult.mk infoText "" 0)
  else none

theorem parse_identifier_is_first_guid_witness :
    findGuids infoText.toList ≠ [] ∧
    dictLookup (parse_entry_properties infoText.toList) "identifier" =
      (findGuids infoText.toList).head? ∧
    "\x7bcafe-1234\x7d" ∈ (list_identifiers gwEntry).2 ∧
    (get_entry gwEntry "\x7bcafe-1234\x7d" ≠ [] ∧
      dictLookup (get_entry gwEntry "\x7bcafe-1234\x7d") "identifier" =
        some "\x7bcafe-1234\x7d") :=
  ⟨by decide,
   parse_identifier_is_first_guid.1 infoText.toList (by decide),
   by decide,
   parse_identifier_is_first_guid.2 gwEntry "\x7bcafe-1234\x7d"
     (RunResult.mk infoText "" 0) (by decide) rfl rfl (by decide)⟩

theorem degraded_status_on_missing_dump_witness :
    ((get_entry_info gwSpawnFail "\x7baa\x7d").2 = none ∨
      (get_entry_info gwSpawnFail "\x7baa\x7d").2 = some "") ∧
    ((check_uefi gwSpawnFail "\x7baa\x7d").2 = false ∧
      (check_ramdisk gwSpawnFail "\x7baa\x7d").2 = false ∧
      (get_entry_device "en" gwSpawnFail "\x7baa\x7d").2 = "" ∧
      (get_entry_path "en" gwSpawnFail "\x7baa\x7d").2 = "" ∧
      has_missing_path_or_device "en" gwSpawnFail
        (fun _ => true) "\x7baa\x7d" = true) :=
  ⟨Or.inl rfl,
   degraded_status_on_missing_dump "en" gwSpawnFail (fun _ => true) "\x7baa\x7d"
     (Or.inl rfl)⟩
